import Mathlib

/-!
A shallow embedding of the core logic of `WorthyPokemons.py`: the type
effectiveness engine, the name classification and normalization helpers,
the detail and species fetch loops, and the analysis pipeline of `main`,
together with theorems settling the specification claims about them.
-/

namespace WorthyPokemons

/-! ## String helpers mirroring the Python string methods used by the code -/

/-- Python `str.split(sep)` for a single-character separator, over a char list.
Mirrors `pokemon_name.split('-')` including empty segments. -/
def splitOnChar (c : Char) : List Char → List (List Char)
  | [] => [[]]
  | x :: xs =>
    match splitOnChar c xs with
    | [] => [[]]
    | p :: ps => if x = c then [] :: p :: ps else (x :: p) :: ps

/-- Split a string on a single-character separator, Python `s.split(c)` style. -/
def pySplit (s : String) (c : Char) : List String :=
  (splitOnChar c s.data).map List.asString

/-- Python `str.title()` over a char list: an alphabetic character is
uppercased when the previous character is not alphabetic, lowercased
otherwise.  The Bool argument records whether the previous character was
alphabetic. -/
def pyTitleAux : Bool → List Char → List Char
  | _, [] => []
  | prevAlpha, ch :: rest =>
    if ch.isAlpha then
      (if prevAlpha then ch.toLower else ch.toUpper) :: pyTitleAux true rest
    else
      ch :: pyTitleAux false rest

/-- Python `str.title()`. -/
def pyTitle (s : String) : String :=
  (pyTitleAux false s.data).asString

/-- Python `str.lower()` (ASCII, as used on the catalog names). -/
def pyLower (s : String) : String :=
  (s.data.map Char.toLower).asString

/-- Python `str.upper()` (ASCII). -/
def pyUpper (s : String) : String :=
  (s.data.map Char.toUpper).asString

/-- Python `sep in s` substring test for the single character used by the code. -/
def containsChar (s : String) (c : Char) : Bool :=
  s.data.contains c

/-- Python `'-'.join(parts)`. -/
def pyJoin (sep : String) : List String → String
  | [] => ""
  | [x] => x
  | x :: y :: rest => x ++ sep ++ pyJoin sep (y :: rest)

/-- Python `s.startswith(p)`. -/
def pyStartsWith (s p : String) : Bool :=
  p.data.isPrefixOf s.data

/-! ## Entity classification and normalization (section 4.4 of the spec) -/

/-- `is_special_form` from the source: a name with a hyphen that is not in
the fixed exception list. -/
def is_special_form (pokemon_name : String) : Bool :=
  let exceptions := ["kommo-o", "hakamo-o", "jangmo-o", "type-null", "ho-oh", "porygon-z"]
  containsChar pokemon_name '-' && !(exceptions.contains pokemon_name)

/-- `is_gmax_or_gender_form` from the source: the lowered name contains one
of the fixed indicator substrings. -/
def is_gmax_or_gender_form (pokemon_name : String) : Bool :=
  let indicators := ["gmax-", "gigantamax-", "-male", "-female"]
  indicators.any (fun ind => decide (List.IsInfix ind.data (pyLower pokemon_name).data))

/-- The fixed mapping of form tokens to display word used by
`format_pokemon_name`. -/
def formPrefixes : List (String × String) :=
  [("mega", "Mega"), ("alolan", "Alolan"), ("galarian", "Galarian"),
   ("hisuian", "Hisuian"), ("paldean", "Paldean"), ("primal", "Primal")]

/-- `format_pokemon_name` from the source. -/
def format_pokemon_name (pokemon_name : String) : String :=
  let exceptions := ["kommo-o", "hakamo-o", "jangmo-o", "type-null", "ho-oh", "porygon-z"]
  if exceptions.contains (pyLower pokemon_name) then
    pyTitle pokemon_name
  else if !(containsChar pokemon_name '-') then
    pyTitle pokemon_name
  else
    let parts := pySplit pokemon_name '-'
    let base_name := pyTitle (parts.headD "")
    let form_name := pyJoin "-" (parts.drop 1)
    match formPrefixes.lookup (pyLower form_name) with
    | some pre => pre ++ " " ++ base_name
    | none =>
      if pyStartsWith (pyLower form_name) "mega" then
        if parts.length > 2 then
          "Mega " ++ base_name ++ " " ++ pyUpper (parts.getLastD "")
        else
          "Mega " ++ base_name
      else
        base_name ++ " (" ++ pyTitle form_name ++ ")"

/-- `is_excluded_pokemon` from the source: the curated Ultra Beast and
Paradox denylists. -/
def is_excluded_pokemon (pokemon_name : String) : Bool :=
  let ultra_beasts := ["nihilego", "buzzwole", "pheromosa", "xurkitree", "celesteela",
    "kartana", "guzzlord", "poipole", "naganadel", "stakataka", "blacephalon"]
  let paradox_pokemon := ["great-tusk", "scream-tail", "brute-bonnet", "flutter-mane",
    "slither-wing", "sandy-shocks", "iron-treads", "iron-bundle", "iron-hands",
    "iron-jugulis", "iron-moth", "iron-thorns", "iron-valiant", "roaring-moon",
    "iron-leaves", "walking-wake", "gouging-fire", "raging-bolt", "iron-boulder",
    "iron-crown"]
  ultra_beasts.contains pokemon_name || paradox_pokemon.contains pokemon_name

/-- `get_base_form_name` from the source: the first hyphen segment, unless
that segment is itself a form-indicator token, in which case the second. -/
def get_base_form_name (pokemon_name : String) : String :=
  let form_indicators := ["mega", "alolan", "galarian", "hisuian", "paldean",
    "primal", "eternamax", "gmax", "gigantamax"]
  let parts := pySplit pokemon_name '-'
  let base_name := parts.headD ""
  if form_indicators.contains (pyLower base_name) && parts.length > 1 then
    parts.getD 1 ""
  else
    base_name

/-! ## Type Effectiveness Engine (section 4.3 of the spec) -/

/-- The damage-relations entry of one type in the type chart: the names in
its `no_damage_from` and `half_damage_from` lists (the code extracts the
`name` field of each relation dict). -/
structure DamageRelations where
  no_damage_from : List String
  half_damage_from : List String
deriving DecidableEq

/-- The type chart: a mapping from type name to its damage relations.  The
code looks entries up with `type_chart[poke_type]`; claims quantify over
charts in which every consulted type is present, so the chart is embedded
as a total function. -/
def TypeChart : Type := String → DamageRelations

/-- The three accumulator sets of `calculate_defensive_effectiveness`. -/
structure DefState where
  immunities : Finset String
  quarter_damage : Finset String
  half_damage : Finset String

/-- One iteration of the immunity loop: `immunities.add(immunity_type)`. -/
def addImmunity (st : DefState) (t : String) : DefState :=
  { st with immunities := insert t st.immunities }

/-- One iteration of the resistance loop of
`calculate_defensive_effectiveness`, with its branch priority: already
immune, already quarter, promote half to quarter, or record a first half
resistance. -/
def addResistance (st : DefState) (t : String) : DefState :=
  if t ∈ st.immunities then st
  else if t ∈ st.quarter_damage then st
  else if t ∈ st.half_damage then
    { st with quarter_damage := insert t st.quarter_damage,
              half_damage := st.half_damage.erase t }
  else
    { st with half_damage := insert t st.half_damage }

/-- Processing of one of the entity types inside the main loop of
`calculate_defensive_effectiveness`: first all of its `no_damage_from`
entries, then all of its `half_damage_from` entries. -/
def processType (chart : TypeChart) (st : DefState) (poke_type : String) : DefState :=
  let st1 := (chart poke_type).no_damage_from.foldl addImmunity st
  (chart poke_type).half_damage_from.foldl addResistance st1

/-- The final accumulator state after the loop of
`calculate_defensive_effectiveness`. -/
def defFold (chart : TypeChart) (pokemon_types : List String) : DefState :=
  pokemon_types.foldl (processType chart) ⟨∅, ∅, ∅⟩

/-- Score of an accumulator state:
`len(immunities) + len(quarter_damage) + len(half_damage)`. -/
def defScore (st : DefState) : Nat :=
  st.immunities.card + st.quarter_damage.card + st.half_damage.card

/-- `calculate_defensive_effectiveness` from the source. -/
def calculate_defensive_effectiveness (pokemon_types : List String) (chart : TypeChart) : Nat :=
  defScore (defFold chart pokemon_types)

/-- The resistance level the accumulator records for one attacking type:
2 when tracked as quarter damage, 1 when tracked as half damage, 0 when
untracked. -/
def aRank (a : String) (st : DefState) : Nat :=
  if a ∈ st.quarter_damage then 2 else if a ∈ st.half_damage then 1 else 0

/-- Union of the `no_damage_from` sets over a list of entity types. -/
def noDamageUnion (chart : TypeChart) (pokemon_types : List String) : Finset String :=
  pokemon_types.foldr (fun ty acc => (chart ty).no_damage_from.toFinset ∪ acc) ∅

/-- Union of the `half_damage_from` sets over a list of entity types. -/
def halfDamageUnion (chart : TypeChart) (pokemon_types : List String) : Finset String :=
  pokemon_types.foldr (fun ty acc => (chart ty).half_damage_from.toFinset ∪ acc) ∅

/-- The number of distinct attacking type names occurring in at least one
of the resistance or immunity relation sets of the entity types; the quantity the
spec says the score equals. -/
def distinctResistedCount (chart : TypeChart) (pokemon_types : List String) : Nat :=
  (noDamageUnion chart pokemon_types ∪ halfDamageUnion chart pokemon_types).card

/-! ## Data model -/

/-- An entity detail record as consumed by the pipeline: name, catalog id,
ordered type names and ordered base stat values. -/
structure PokemonData where
  name : String
  id : Nat
  types : List String
  stats : List Nat
deriving DecidableEq

/-- A species record: the legendary and mythical flags and, when present,
the species id (the National Dex number).  The synthesized default record
has no id field. -/
structure Species where
  is_legendary : Bool
  is_mythical : Bool
  id : Option Nat := none
deriving DecidableEq

/-! ## Remote Data Gateway (section 4.1 of the spec)

One HTTP round trip is modelled by its observable outcome; a fetch loop is
driven by a script `resp : Nat → HttpResp α` giving the outcome of each
attempted request in order. -/

/-- Outcome of one HTTP request: a 200 with a parsed record, a 429 with an
optional Retry-After value, some other status code, or a raised
transport/parse exception. -/
inductive HttpResp (α : Type) where
  | ok (a : α)
  | rateLimited (retryAfter : Option Nat)
  | status (code : Nat)
  | exn (msg : String)
deriving DecidableEq

/-- What the caller of a detail fetch observes: a returned record, a
returned `None`, or a raised exception. -/
inductive FetchResult (α : Type) where
  | ok (a : α)
  | returnedNone
  | raised (msg : String)
deriving DecidableEq

/-- The attempt loop of `get_pokemon_details` on a cache miss, recursing
over the list of remaining attempt indices (`range(max_retries)`); the
second component collects the `time.sleep` durations in order.  A 429
sleeps for the Retry-After value, else `retry_delay * 2`, and falls to the
next attempt; another non-200 status sleeps `retry_delay`; an exception
sleeps and retries unless the attempt is the last one
(`attempt < max_retries - 1` fails, i.e. no attempt remains), in which
case it raises; an exhausted loop falls through to `return None`. -/
def detailsLoop (resp : Nat → HttpResp PokemonData) (retry_delay : Nat) :
    List Nat → FetchResult PokemonData × List Nat
  | [] => (.returnedNone, [])
  | attempt :: rest =>
    match resp attempt with
    | .ok d => (.ok d, [])
    | .rateLimited ra =>
      let r := detailsLoop resp retry_delay rest
      (r.1, ra.getD (retry_delay * 2) :: r.2)
    | .status _ =>
      let r := detailsLoop resp retry_delay rest
      (r.1, retry_delay :: r.2)
    | .exn m =>
      if rest.isEmpty then (.raised m, [])
      else
        let r := detailsLoop resp retry_delay rest
        (r.1, retry_delay :: r.2)

/-- `get_pokemon_details` on a cache miss, with the default
`max_retries=3, retry_delay=1` left as parameters. -/
def get_pokemon_details_miss (resp : Nat → HttpResp PokemonData)
    (retry_delay max_retries : Nat) : FetchResult PokemonData × List Nat :=
  detailsLoop resp retry_delay (List.range max_retries)

/-- `get_pokemon_details` including the cache check: a hit returns the
cached record without any request; a miss runs the attempt loop and, on
success, stores the record under the key. -/
def get_pokemon_details (url : String) (details_cache : List (String × PokemonData))
    (resp : Nat → HttpResp PokemonData) (retry_delay max_retries : Nat) :
    FetchResult PokemonData × List (String × PokemonData) :=
  match details_cache.lookup url with
  | some d => (.ok d, details_cache)
  | none =>
    let r := (get_pokemon_details_miss resp retry_delay max_retries).1
    match r with
    | .ok d => (r, (url, d) :: details_cache)
    | _ => (r, details_cache)

/-- What the caller of `get_species_info` observes: a fetched record, the
synthesized default record after the loop exhausts, or a raised
exception. -/
inductive SpeciesResult where
  | fetched (s : Species)
  | defaulted
  | raised (msg : String)
deriving DecidableEq

/-- The attempt loop of `get_species_info` on a cache miss, for a numeric
id.  A 404 recomputes the URL from `str(pokemon_id).split('-')[0]`, which
for a numeric id is the digit string of the id itself, so the branch
continues to the next attempt on the same URL without sleeping.  The 429
and exception branches behave as in `get_pokemon_details`; an exhausted
loop returns the synthesized default record. -/
def speciesLoop (resp : Nat → HttpResp Species) (retry_delay : Nat) :
    List Nat → SpeciesResult × List Nat
  | [] => (.defaulted, [])
  | attempt :: rest =>
    match resp attempt with
    | .ok s => (.fetched s, [])
    | .rateLimited ra =>
      let r := speciesLoop resp retry_delay rest
      (r.1, ra.getD (retry_delay * 2) :: r.2)
    | .status code =>
      if code = 404 then
        speciesLoop resp retry_delay rest
      else
        let r := speciesLoop resp retry_delay rest
        (r.1, retry_delay :: r.2)
    | .exn m =>
      if rest.isEmpty then (.raised m, [])
      else
        let r := speciesLoop resp retry_delay rest
        (r.1, retry_delay :: r.2)

/-- `get_species_info` on a cache miss. -/
def get_species_info_miss (resp : Nat → HttpResp Species)
    (retry_delay max_retries : Nat) : SpeciesResult × List Nat :=
  speciesLoop resp retry_delay (List.range max_retries)

/-! ## Signature and species helpers -/

/-- Python code-point comparison of two strings, `a <= b`. -/
def charListLe : List Char → List Char → Bool
  | [], _ => true
  | _ :: _, [] => false
  | a :: as, b :: bs => if a < b then true else if b < a then false else charListLe as bs

/-- Python `sorted` on a list of strings (code-point order). -/
def sortStrings (l : List String) : List String :=
  l.insertionSort (fun a b => charListLe a.data b.data = true)

/-- The signature type of `get_pokemon_signature`: sorted type names plus
stat values in declared order. -/
abbrev Signature := List String × List Nat

/-- `get_pokemon_signature` from the source. -/
def get_pokemon_signature (d : PokemonData) : Signature :=
  (sortStrings d.types, d.stats)

/-- The deduplication key of the main loop:
`(base_name, pokemon_signature)`. -/
abbrev SigKey := String × Signature

/-- The deduplication key computed for a detail record in the main loop. -/
def sigKey (d : PokemonData) : SigKey :=
  (get_base_form_name d.name, get_pokemon_signature d)

/-- The base stat total: the sum over the stats list of the base_stat
values. -/
def statsTotal (d : PokemonData) : Nat :=
  d.stats.sum

/-- The URL built for a base form lookup:
`f"https://pokeapi.co/api/v2/pokemon/{base_name}/"`. -/
def base_form_url (base_name : String) : String :=
  "https://pokeapi.co/api/v2/pokemon/" ++ base_name ++ "/"

/-! ## The world seen by one pipeline run

Fetches are cached per key, so within one run every lookup of the same key
yields the same outcome; a run is therefore driven by two functions giving
the net outcome of each logical fetch: for a detail URL, a returned record,
a returned `None`, or a raised exception; for a species id, a returned
record (fetched or synthesized default) or a raised exception. -/

structure World where
  details : String → Except Unit (Option PokemonData)
  species : Nat → Except Unit Species

/-- `is_legendary_or_mythical` from the source: the own species record is
consulted first; a special form whose own flags are unset additionally
fetches the base form detail record and, when that yields a (truthy)
record, the base species record; any exception along the way is caught and
turned into `True`.  A base detail fetch returning `None` is falsy, so the
code falls through to `return False`. -/
def is_legendary_or_mythical (w : World) (pokemon_name : String) (pokemon_id : Nat) : Bool :=
  match w.species pokemon_id with
  | .error _ => true
  | .ok species_data =>
    if species_data.is_legendary || species_data.is_mythical then true
    else if is_special_form pokemon_name then
      match w.details (base_form_url (get_base_form_name pokemon_name)) with
      | .error _ => true
      | .ok none => false
      | .ok (some base_data) =>
        match w.species base_data.id with
        | .error _ => true
        | .ok sd2 => sd2.is_legendary || sd2.is_mythical
    else false

/-- `get_national_dex_number` from the source: the species record id when
the lookup succeeds and the record has an id field, else the catalog id. -/
def get_national_dex_number (w : World) (pokemon_id : Nat) : Nat :=
  match w.species pokemon_id with
  | .error _ => pokemon_id
  | .ok species_data => species_data.id.getD pokemon_id

/-! ## Analysis Pipeline (the per-entity loop of `main`) -/

/-- One entry of the catalog listing: raw name and detail URL. -/
structure ApiEntry where
  name : String
  url : String

/-- Mutable state of the main loop: the accepted deduplication keys
(`processed_signatures`), the accepted detail records in acceptance order
(each yields one result row), and the error count. -/
structure PipelineState where
  processed : List SigKey
  results : List PokemonData
  errors : Nat

/-- The inner `try` of the alternate-form check: fetch the base form by
name and compare signatures; a raised exception or a `None` record (which
makes `get_pokemon_signature` raise inside the `try`) is swallowed and the
form treated as unique. -/
def sameSignatureAsBase (w : World) (d : PokemonData) (base_name : String) : Bool :=
  match w.details (base_form_url base_name) with
  | .ok (some base_data) => get_pokemon_signature base_data == get_pokemon_signature d
  | _ => false

/-- The branch taken by the main loop body for one catalog entry. -/
inductive StepOutcome where
  | denylisted
  | fetchRaised
  | fetchNone
  | legendary (d : PokemonData)
  | belowBst (d : PokemonData)
  | sameAsBase (d : PokemonData)
  | duplicate (d : PokemonData)
  | accepted (d : PokemonData)
deriving DecidableEq

/-- Which branch of the main loop body fires for one catalog entry, in the
order of the source: denylist, detail fetch, legendary/mythical, minimum
base stat total, alternate-form signature match, deduplication key,
acceptance. -/
def stepClassify (w : World) (min_bst : Nat) (processed : List SigKey)
    (e : ApiEntry) : StepOutcome :=
  if is_excluded_pokemon e.name then .denylisted
  else
    match w.details e.url with
    | .error _ => .fetchRaised
    | .ok none => .fetchNone
    | .ok (some d) =>
      if is_legendary_or_mythical w d.name d.id then .legendary d
      else if statsTotal d < min_bst then .belowBst d
      else if get_base_form_name d.name != d.name &&
          sameSignatureAsBase w d (get_base_form_name d.name) then .sameAsBase d
      else if sigKey d ∈ processed then .duplicate d
      else .accepted d

/-- One iteration of the main loop: a raised detail fetch is caught by the
outer handler and counted; an accepted entry records its deduplication key
and appends its detail record; every other branch skips the entry. -/
def runStep (w : World) (min_bst : Nat) (st : PipelineState) (e : ApiEntry) : PipelineState :=
  match stepClassify w min_bst st.processed e with
  | .fetchRaised => { st with errors := st.errors + 1 }
  | .accepted d =>
    { st with processed := sigKey d :: st.processed, results := st.results ++ [d] }
  | _ => st

/-- The whole per-entity loop of `main` over the filtered catalog listing. -/
def runPipeline (w : World) (min_bst : Nat) (entries : List ApiEntry) : PipelineState :=
  entries.foldl (runStep w min_bst) ⟨[], [], 0⟩

/-- One emitted result row, with the fields of the dict built in `main`. -/
structure ResultRow where
  name : String
  id : Nat
  types : String
  base_stats_total : Nat
  defensive_advantages : Nat

/-- The result row built for an accepted detail record. -/
def mkRow (w : World) (chart : TypeChart) (d : PokemonData) : ResultRow :=
  { name := format_pokemon_name d.name,
    id := get_national_dex_number w d.id,
    types := pyJoin ", " (d.types.map pyTitle),
    base_stats_total := statsTotal d,
    defensive_advantages := calculate_defensive_effectiveness d.types chart }

/-- The sort comparator of the final report: descending lexicographic on
(defensive advantage score, base stat total), as in
the `sort_values` call of `main` with both columns descending. -/
def rowBefore (a b : ResultRow) : Bool :=
  (decide (b.defensive_advantages < a.defensive_advantages)) ||
    (a.defensive_advantages == b.defensive_advantages &&
      decide (b.base_stats_total ≤ a.base_stats_total))

/-- The report comparator as a relation. -/
def rowRel : ResultRow → ResultRow → Prop := fun a b => rowBefore a b = true

instance : DecidableRel rowRel := fun a b =>
  inferInstanceAs (Decidable (rowBefore a b = true))

instance : IsTotal ResultRow rowRel :=
  ⟨fun a b => by
    simp only [rowRel, rowBefore, Bool.or_eq_true, decide_eq_true_eq,
      Bool.and_eq_true, beq_iff_eq]
    omega⟩

instance : IsTrans ResultRow rowRel :=
  ⟨fun a b c hab hbc => by
    simp only [rowRel, rowBefore, Bool.or_eq_true, decide_eq_true_eq,
      Bool.and_eq_true, beq_iff_eq] at hab hbc ⊢
    omega⟩

/-- The final sort of the result rows. -/
def sortResults (rows : List ResultRow) : List ResultRow :=
  rows.insertionSort rowRel

/-- The ordered Result Row sequence handed to the reporting collaborator. -/
def reportRows (w : World) (chart : TypeChart) (min_bst : Nat)
    (entries : List ApiEntry) : List ResultRow :=
  sortResults (((runPipeline w min_bst entries).results).map (mkRow w chart))

/-! ## Concrete fixtures used by counterexamples and witnesses -/

/-- A chart in which the first type half-resists an attacking type to which
the second type is immune (as rock and ghost do for normal in the real
chart). -/
def cexChart : TypeChart := fun ty =>
  if ty = "rock" then ⟨[], ["normal"]⟩
  else if ty = "ghost" then ⟨["normal"], []⟩
  else ⟨[], []⟩

/-- A chart in which steel and fairy both half-resist dragon, as in the
real chart. -/
def dragonChart : TypeChart := fun ty =>
  if ty = "steel" then ⟨[], ["dragon"]⟩
  else if ty = "fairy" then ⟨[], ["dragon"]⟩
  else ⟨[], []⟩

/-- A base form detail record. -/
def baseData : PokemonData := ⟨"abc", 1, ["normal"], [600]⟩

/-- An alternate form with the same signature as `baseData`. -/
def altData : PokemonData := ⟨"abc-mega", 101, ["normal"], [600]⟩

/-- A world in which `baseData` and `altData` are fetchable, their species
records carry no flags, and the base form is fetchable by name. -/
def pipeWorld : World where
  details := fun url =>
    if url = "u1" then .ok (some baseData)
    else if url = "u2" then .ok (some altData)
    else if url = base_form_url "abc" then .ok (some baseData)
    else .error ()
  species := fun i => .ok ⟨false, false, some i⟩

/-- The catalog entries of the two fixtures. -/
def pipeEntries : List ApiEntry := [⟨"abc", "u1"⟩, ⟨"abc-mega", "u2"⟩]

/-- A world in which the base form detail fetch of a special form returns
`None` while its species record would carry the legendary flag. -/
def noneBaseWorld : World where
  details := fun url => if url = base_form_url "abc" then .ok none else .error ()
  species := fun i =>
    if i = 5 then .ok ⟨false, false, some 5⟩ else .ok ⟨true, false, some i⟩

/-- A response script answering every request with HTTP 404. -/
def resp404 : Nat → HttpResp PokemonData := fun _ => .status 404

/-- A response script raising a transport exception on every request. -/
def respBoom : Nat → HttpResp PokemonData := fun _ => .exn "boom"

/-- A response script: two HTTP 500 answers, then success. -/
def respLateOk : Nat → HttpResp PokemonData := fun n =>
  if n < 2 then .status 500 else .ok baseData

/-- Prepend one rate-limited response to a script. -/
def prepend429 (resp : Nat → HttpResp PokemonData) : Nat → HttpResp PokemonData :=
  fun n => if n = 0 then .rateLimited none else resp (n - 1)

/-- A detail script rate-limited once with a suggested wait, then ok. -/
def respRL : Nat → HttpResp PokemonData := fun n =>
  if n = 0 then .rateLimited (some 7) else .ok baseData

/-- A species script rate-limited once without a suggested wait, then ok. -/
def sRespRL : Nat → HttpResp Species := fun n =>
  if n = 0 then .rateLimited none else .ok ⟨false, false, some 9⟩

/-! # Theorems -/

/-- Helper: the score never decreases when an immunity entry is added. -/
theorem defScore_addImmunity (st : DefState) (b : String) :
    defScore st ≤ defScore (addImmunity st b) := by
  have := Finset.card_le_card (Finset.subset_insert b st.immunities)
  simp only [defScore, addImmunity]
  omega

/-- Helper: the score never decreases across the immunity loop. -/
theorem defScore_foldl_addImmunity (l : List String) (st : DefState) :
    defScore st ≤ defScore (l.foldl addImmunity st) := by
  induction l generalizing st with
  | nil => exact Nat.le_refl _
  | cons b l ih => exact Nat.le_trans (defScore_addImmunity st b) (ih _)

/-- Helper: the score never decreases when a resistance entry is added. -/
theorem defScore_addResistance (st : DefState) (b : String) :
    defScore st ≤ defScore (addResistance st b) := by
  unfold addResistance
  split_ifs with h1 h2 h3
  · exact Nat.le_refl _
  · exact Nat.le_refl _
  · have hq := Finset.card_insert_of_not_mem h2
    have hh := Finset.card_erase_of_mem h3
    have hpos : 0 < st.half_damage.card := Finset.card_pos.mpr ⟨b, h3⟩
    simp only [defScore]
    omega
  · have := Finset.card_le_card (Finset.subset_insert b st.half_damage)
    simp only [defScore]
    omega

/-- Helper: the score never decreases across the resistance loop. -/
theorem defScore_foldl_addResistance (l : List String) (st : DefState) :
    defScore st ≤ defScore (l.foldl addResistance st) := by
  induction l generalizing st with
  | nil => exact Nat.le_refl _
  | cons b l ih => exact Nat.le_trans (defScore_addResistance st b) (ih _)

/-- Helper: the score never decreases when one more entity type is
processed. -/
theorem defScore_processType (chart : TypeChart) (st : DefState) (ty : String) :
    defScore st ≤ defScore (processType chart st ty) := by
  unfold processType
  exact Nat.le_trans (defScore_foldl_addImmunity _ _) (defScore_foldl_addResistance _ _)

/-- C10: appending one more type to the entity type list never decreases
the defensive-advantage score returned by
`calculate_defensive_effectiveness`. -/
theorem C10_score_monotone (chart : TypeChart) (pokemon_types : List String) (t : String) :
    calculate_defensive_effectiveness pokemon_types chart ≤
      calculate_defensive_effectiveness (pokemon_types ++ [t]) chart := by
  unfold calculate_defensive_effectiveness defFold
  rw [List.foldl_append]
  exact defScore_processType chart _ t

/-- C8: the display-name normalization maps the four sample raw names to
the specified display names. -/
theorem C8_format_examples :
    format_pokemon_name "charizard-mega-x" = "Mega Charizard X" ∧
    format_pokemon_name "raichu-alolan" = "Alolan Raichu" ∧
    format_pokemon_name "deoxys-attack" = "Deoxys (Attack)" ∧
    format_pokemon_name "porygon-z" = "Porygon-Z" :=
  ⟨by decide, by decide, by decide, by decide⟩

/-- C9: an entity that reaches the stat-threshold step of the loop (not
denylisted, detail record fetched, not legendary or mythical) is excluded
at that step exactly when its base-stat total is strictly below the
configured minimum; a total equal to the minimum is not excluded there. -/
theorem C9_threshold (w : World) (min_bst : Nat) (processed : List SigKey)
    (e : ApiEntry) (d : PokemonData)
    (hden : is_excluded_pokemon e.name = false)
    (hdet : w.details e.url = .ok (some d))
    (hleg : is_legendary_or_mythical w d.name d.id = false) :
    (stepClassify w min_bst processed e = .belowBst d ↔ statsTotal d < min_bst) ∧
    (statsTotal d = min_bst → stepClassify w min_bst processed e ≠ .belowBst d) := by
  have hcl : stepClassify w min_bst processed e =
      (if statsTotal d < min_bst then .belowBst d
       else if get_base_form_name d.name != d.name &&
           sameSignatureAsBase w d (get_base_form_name d.name) then .sameAsBase d
       else if sigKey d ∈ processed then .duplicate d
       else .accepted d) := by
    simp [stepClassify, hden, hdet, hleg]
  constructor
  · rw [hcl]
    by_cases hb : statsTotal d < min_bst
    · simp [hb]
    · simp only [if_neg hb]
      constructor
      · intro h
        split at h
        · simp_all
        · split at h <;> simp_all
      · intro h
        exact absurd h hb
  · intro heq
    rw [hcl]
    have hb : ¬ statsTotal d < min_bst := by omega
    simp only [if_neg hb]
    split
    · simp_all
    · split <;> simp_all

/-- Witness for C9 at the boundary: the fixture entity has base-stat total
exactly 600, so with minimum 600 it is not excluded at the threshold
step. -/
theorem C9_threshold_witness :
    (stepClassify pipeWorld 600 [] ⟨"abc", "u1"⟩ = .belowBst baseData ↔
      statsTotal baseData < 600) ∧
    (statsTotal baseData = 600 →
      stepClassify pipeWorld 600 [] ⟨"abc", "u1"⟩ ≠ .belowBst baseData) :=
  C9_threshold pipeWorld 600 [] ⟨"abc", "u1"⟩ baseData (by decide) rfl (by decide)

/-- Helper: on a cache miss the wrapper returns the attempt-loop result. -/
theorem get_pokemon_details_fst (url : String) (cache : List (String × PokemonData))
    (resp : Nat → HttpResp PokemonData) (rd mr : Nat)
    (h : cache.lookup url = none) :
    (get_pokemon_details url cache resp rd mr).1 =
      (get_pokemon_details_miss resp rd mr).1 := by
  unfold get_pokemon_details
  rw [h]
  cases hr : (get_pokemon_details_miss resp rd mr).1 <;> simp [hr]

/-- C3 counterexample: with the default three attempts, a script answering
HTTP 404 every time makes `get_pokemon_details` on an uncached key hand
the caller neither a record nor a thrown failure (the code falls through
to `return None`), refuting the claim that those are the only two
outcomes. -/
theorem C3_counterexample :
    ¬ (∀ (url : String) (cache : List (String × PokemonData))
        (resp : Nat → HttpResp PokemonData) (rd : Nat),
        cache.lookup url = none →
        ((∃ d, (get_pokemon_details url cache resp rd 3).1 = .ok d) ∨
         (∃ m, (get_pokemon_details url cache resp rd 3).1 = .raised m))) := by
  intro h
  rcases h "u" [] resp404 1 rfl with ⟨d, hd⟩ | ⟨m, hm⟩
  · rw [show (get_pokemon_details "u" [] resp404 1 3).1 = .returnedNone from rfl] at hd
    exact FetchResult.noConfusion hd
  · rw [show (get_pokemon_details "u" [] resp404 1 3).1 = .returnedNone from rfl] at hm
    exact FetchResult.noConfusion hm

/-- C3 amended: on a key not in the cache, with the default three
attempts, the caller observes exactly one of three outcomes: a complete
record (only when some attempt answered 200), a thrown failure (only when
the final attempt raised a transport or parse exception), or a `None`
result (only when no attempt answered 200). -/
theorem C3_outcomes (url : String) (cache : List (String × PokemonData))
    (resp : Nat → HttpResp PokemonData) (rd : Nat)
    (hmiss : cache.lookup url = none) :
    (∀ d, (get_pokemon_details url cache resp rd 3).1 = .ok d →
        resp 0 = .ok d ∨ resp 1 = .ok d ∨ resp 2 = .ok d) ∧
    (∀ m, (get_pokemon_details url cache resp rd 3).1 = .raised m →
        resp 2 = .exn m) ∧
    ((get_pokemon_details url cache resp rd 3).1 = .returnedNone →
        ∀ d, resp 0 ≠ .ok d ∧ resp 1 ≠ .ok d ∧ resp 2 ≠ .ok d) := by
  rw [get_pokemon_details_fst url cache resp rd 3 hmiss]
  have hr : List.range 3 = [0, 1, 2] := rfl
  unfold get_pokemon_details_miss
  rw [hr]
  rcases h0 : resp 0 with d0 | ra0 | c0 | m0 <;>
    rcases h1 : resp 1 with d1 | ra1 | c1 | m1 <;>
      rcases h2 : resp 2 with d2 | ra2 | c2 | m2 <;>
        simp_all [detailsLoop]

/-- Witness for C3 amended at the all-404 script. -/
theorem C3_outcomes_witness :
    (∀ d, (get_pokemon_details "u" [] resp404 1 3).1 = .ok d →
        resp404 0 = .ok d ∨ resp404 1 = .ok d ∨ resp404 2 = .ok d) ∧
    (∀ m, (get_pokemon_details "u" [] resp404 1 3).1 = .raised m →
        resp404 2 = .exn m) ∧
    ((get_pokemon_details "u" [] resp404 1 3).1 = .returnedNone →
        ∀ d, resp404 0 ≠ .ok d ∧ resp404 1 ≠ .ok d ∧ resp404 2 ≠ .ok d) :=
  C3_outcomes "u" [] resp404 1 rfl

/-- C4 counterexample: prepending one rate-limited response to a script
changes the observed outcome of `get_pokemon_details` (a script that
succeeds on its third and last attempt no longer succeeds once a 429 uses
up the first attempt), refuting the claim that a rate-limited round does
not count against the retry budget. -/
theorem C4_counterexample :
    ¬ (∀ (resp : Nat → HttpResp PokemonData) (rd : Nat),
        (get_pokemon_details_miss (prepend429 resp) rd 3).1 =
          (get_pokemon_details_miss resp rd 3).1) := by
  intro h
  have hc := h respLateOk 1
  rw [show (get_pokemon_details_miss (prepend429 respLateOk) 1 3).1 = .returnedNone from rfl,
      show (get_pokemon_details_miss respLateOk 1 3).1 = .ok baseData from rfl] at hc
  exact FetchResult.noConfusion hc

/-- C4 amended: in both fetch loops, a 429 response triggers a wait for
the server-suggested duration, falling back to `retry_delay * 2` when no
suggestion is given, followed by a retry — but the rate-limited round
consumes one attempt of the bounded retry budget: the loop continues with
the remaining attempts only. -/
theorem C4_rate_limit_behavior :
    (∀ (resp : Nat → HttpResp PokemonData) (rd : Nat) (ra : Option Nat)
        (attempt : Nat) (rest : List Nat),
      resp attempt = .rateLimited ra →
      detailsLoop resp rd (attempt :: rest) =
        ((detailsLoop resp rd rest).1,
          ra.getD (rd * 2) :: (detailsLoop resp rd rest).2)) ∧
    (∀ (resp : Nat → HttpResp Species) (rd : Nat) (ra : Option Nat)
        (attempt : Nat) (rest : List Nat),
      resp attempt = .rateLimited ra →
      speciesLoop resp rd (attempt :: rest) =
        ((speciesLoop resp rd rest).1,
          ra.getD (rd * 2) :: (speciesLoop resp rd rest).2)) := by
  constructor
  · intro resp rd ra attempt rest hresp
    simp [detailsLoop, hresp]
  · intro resp rd ra attempt rest hresp
    simp [speciesLoop, hresp]

/-- Witness for C4 amended: one suggested-wait 429 in the detail loop and
one fallback-wait 429 in the species loop. -/
theorem C4_rate_limit_witness :
    detailsLoop respRL 1 (0 :: [1, 2]) =
      ((detailsLoop respRL 1 [1, 2]).1,
        (some 7).getD (1 * 2) :: (detailsLoop respRL 1 [1, 2]).2) ∧
    speciesLoop sRespRL 1 (0 :: [1, 2]) =
      ((speciesLoop sRespRL 1 [1, 2]).1,
        (none : Option Nat).getD (1 * 2) :: (speciesLoop sRespRL 1 [1, 2]).2) :=
  ⟨C4_rate_limit_behavior.1 respRL 1 (some 7) 0 [1, 2] rfl,
   C4_rate_limit_behavior.2 sRespRL 1 none 0 [1, 2] rfl⟩

/-- C7 counterexample: the claim says `is_legendary_or_mythical` returns
false only when the relevant species records were consulted, including,
for a special form, the base form species record.  In a world where the
base form detail fetch returns `None`, the function returns false for a
special form without ever consulting the base form species record (which
here would carry the legendary flag), refuting the only-when clause. -/
theorem C7_counterexample :
    ¬ (∀ (w : World) (name : String) (id : Nat),
        is_legendary_or_mythical w name id = false →
        ∃ s, w.species id = .ok s ∧ s.is_legendary = false ∧ s.is_mythical = false ∧
          (is_special_form name = true →
            ∃ bd sb,
              w.details (base_form_url (get_base_form_name name)) = .ok (some bd) ∧
              w.species bd.id = .ok sb ∧
              sb.is_legendary = false ∧ sb.is_mythical = false)) := by
  intro h
  obtain ⟨s, _, _, _, hsp⟩ := h noneBaseWorld "abc-mega" 5 (by decide)
  obtain ⟨bd, sb, hbd, _⟩ := hsp (by decide)
  rw [show noneBaseWorld.details (base_form_url (get_base_form_name "abc-mega")) =
      .ok none from rfl] at hbd
  simp at hbd

/-- C7 amended: any exception while determining legendary or mythical
status yields true (fail closed), and the function returns false exactly
when the own species lookup succeeded with both flags unset and, for a
special form, either the base form detail fetch returned `None` (in which
case the base species record is never consulted) or the base form detail
and species lookups succeeded with both flags unset. -/
theorem C7_fail_closed (w : World) (name : String) (id : Nat) :
    (w.species id = .error () → is_legendary_or_mythical w name id = true) ∧
    (is_legendary_or_mythical w name id = false ↔
      ∃ s, w.species id = .ok s ∧ s.is_legendary = false ∧ s.is_mythical = false ∧
        (is_special_form name = true →
          (w.details (base_form_url (get_base_form_name name)) = .ok none ∨
           ∃ bd sb,
             w.details (base_form_url (get_base_form_name name)) = .ok (some bd) ∧
             w.species bd.id = .ok sb ∧
             sb.is_legendary = false ∧ sb.is_mythical = false))) := by
  constructor
  · intro h
    unfold is_legendary_or_mythical
    rw [h]
  · unfold is_legendary_or_mythical
    rcases hs : w.species id with e | s
    · simp [hs]
    · simp only [hs]
      by_cases hfl : (s.is_legendary || s.is_mythical) = true
      · simp only [hfl, if_true]
        constructor
        · intro hh
          exact absurd hh (by simp)
        · rintro ⟨s', hss, hl, hm, _⟩
          rw [Except.ok.injEq] at hss
          subst hss
          simp [hl, hm] at hfl
      · by_cases hsf : is_special_form name = true
        · rcases hd : w.details (base_form_url (get_base_form_name name)) with e' | od
          · simp_all
          · rcases od with _ | bd
            · simp_all
            · rcases hsb : w.species bd.id with e'' | sb
              · simp_all
              · simp_all [Bool.or_eq_false_iff]
        · simp_all [Bool.or_eq_false_iff]

/-- Witness for C7 amended: in the base-fetch-returns-None world the
characterization yields a false result for the special form. -/
theorem C7_fail_closed_witness :
    is_legendary_or_mythical noneBaseWorld "abc-mega" 5 = false :=
  (C7_fail_closed noneBaseWorld "abc-mega" 5).2.mpr
    ⟨⟨false, false, some 5⟩, rfl, rfl, rfl, fun _ => Or.inl rfl⟩

/-- C6: the Result Row sequence handed to the reporting collaborator is
sorted by defensive-advantage score descending, rows with equal score by
base-stat total descending; and the sort is a function of the accepted row
sequence, so identical input sequences always yield identical output
sequences. -/
theorem C6_report_sorted (w : World) (chart : TypeChart) (min_bst : Nat)
    (entries : List ApiEntry) :
    (reportRows w chart min_bst entries).Pairwise
      (fun a b => b.defensive_advantages < a.defensive_advantages ∨
        (a.defensive_advantages = b.defensive_advantages ∧
          b.base_stats_total ≤ a.base_stats_total)) ∧
    (∀ rows rows' : List ResultRow, rows = rows' → sortResults rows = sortResults rows') := by
  constructor
  · have hs := List.sorted_insertionSort rowRel
      (((runPipeline w min_bst entries).results).map (mkRow w chart))
    refine List.Pairwise.imp ?_ hs
    intro a b hab
    simpa only [rowRel, rowBefore, Bool.or_eq_true, decide_eq_true_eq,
      Bool.and_eq_true, beq_iff_eq] using hab
  · intro rows rows' h
    rw [h]

/-- Witness for C6 on the fixture pipeline. -/
theorem C6_report_sorted_witness :
    (reportRows pipeWorld dragonChart 500 pipeEntries).Pairwise
      (fun a b => b.defensive_advantages < a.defensive_advantages ∨
        (a.defensive_advantages = b.defensive_advantages ∧
          b.base_stats_total ≤ a.base_stats_total)) ∧
    sortResults [] = sortResults [] :=
  ⟨(C6_report_sorted pipeWorld dragonChart 500 pipeEntries).1,
   (C6_report_sorted pipeWorld dragonChart 500 pipeEntries).2 [] [] rfl⟩

/-- Helper: an accepted entry has a deduplication key not yet recorded. -/
theorem stepClassify_accepted_not_mem (w : World) (mb : Nat) (processed : List SigKey)
    (e : ApiEntry) (d : PokemonData)
    (h : stepClassify w mb processed e = .accepted d) : sigKey d ∉ processed := by
  unfold stepClassify at h
  split at h
  · exact absurd h (by simp)
  · split at h
    · exact absurd h (by simp)
    · exact absurd h (by simp)
    · split at h
      · exact absurd h (by simp)
      · split at h
        · exact absurd h (by simp)
        · split at h
          · exact absurd h (by simp)
          · split at h
            · exact absurd h (by simp)
            · injection h with h'
              subst h'
              assumption

/-- Helper: one loop iteration preserves the deduplication invariant: every
accepted record's key is recorded, and accepted records have pairwise
distinct keys. -/
theorem runStep_inv (w : World) (mb : Nat) (st : PipelineState) (e : ApiEntry)
    (h1 : ∀ d ∈ st.results, sigKey d ∈ st.processed)
    (h2 : st.results.Pairwise fun a b => sigKey a ≠ sigKey b) :
    (∀ d ∈ (runStep w mb st e).results, sigKey d ∈ (runStep w mb st e).processed) ∧
    (runStep w mb st e).results.Pairwise (fun a b => sigKey a ≠ sigKey b) := by
  unfold runStep
  cases hcl : stepClassify w mb st.processed e with
  | denylisted => exact ⟨h1, h2⟩
  | fetchRaised => exact ⟨h1, h2⟩
  | fetchNone => exact ⟨h1, h2⟩
  | legendary d => exact ⟨h1, h2⟩
  | belowBst d => exact ⟨h1, h2⟩
  | sameAsBase d => exact ⟨h1, h2⟩
  | duplicate d => exact ⟨h1, h2⟩
  | accepted d =>
    have hnm := stepClassify_accepted_not_mem w mb st.processed e d hcl
    constructor
    · intro d' hd'
      rcases List.mem_append.mp hd' with hmem | hmem
      · exact List.mem_cons_of_mem _ (h1 d' hmem)
      · rw [List.mem_singleton.mp hmem]
        exact List.mem_cons_self _ _
    · rw [List.pairwise_append]
      refine ⟨h2, List.pairwise_singleton _ _, ?_⟩
      intro a ha b hb
      rw [List.mem_singleton.mp hb]
      intro heq
      exact hnm (heq ▸ h1 a ha)

/-- Helper: the whole loop preserves the deduplication invariant. -/
theorem runPipeline_inv (w : World) (mb : Nat) :
    ∀ (entries : List ApiEntry) (st : PipelineState),
      (∀ d ∈ st.results, sigKey d ∈ st.processed) →
      st.results.Pairwise (fun a b => sigKey a ≠ sigKey b) →
      (∀ d ∈ (entries.foldl (runStep w mb) st).results,
          sigKey d ∈ (entries.foldl (runStep w mb) st).processed) ∧
      (entries.foldl (runStep w mb) st).results.Pairwise
        (fun a b => sigKey a ≠ sigKey b) := by
  intro entries
  induction entries with
  | nil => exact fun st h1 h2 => ⟨h1, h2⟩
  | cons e rest ih =>
    intro st h1 h2
    rw [List.foldl_cons]
    obtain ⟨h1', h2'⟩ := runStep_inv w mb st e h1 h2
    exact ih (runStep w mb st e) h1' h2'

/-- Helper: an entry whose detail record is an alternate form with the
same signature as its successfully fetched base form is classified as
denylisted, legendary, below threshold, or same-as-base — never as
accepted. -/
theorem stepClassify_sameAsBase_skip (w : World) (mb : Nat) (processed : List SigKey)
    (e : ApiEntry) (d : PokemonData)
    (hdet : w.details e.url = .ok (some d))
    (hneq : get_base_form_name d.name ≠ d.name)
    (hsame : sameSignatureAsBase w d (get_base_form_name d.name) = true) :
    stepClassify w mb processed e = .denylisted ∨
    stepClassify w mb processed e = .legendary d ∨
    stepClassify w mb processed e = .belowBst d ∨
    stepClassify w mb processed e = .sameAsBase d := by
  unfold stepClassify
  split
  · exact Or.inl rfl
  · simp only [hdet]
    split
    · exact Or.inr (Or.inl rfl)
    · split
      · exact Or.inr (Or.inr (Or.inl rfl))
      · rw [if_pos (show _ = true by
          rw [Bool.and_eq_true]
          exact ⟨bne_iff_ne.mpr hneq, hsame⟩)]
        exact Or.inr (Or.inr (Or.inr rfl))

/-- C2: every run of the pipeline accepts at most one record per
deduplication key (base-form name, signature) — the emitted Result Rows
are `(runPipeline ...).results.map (mkRow ...)`, one row per accepted
record — and an alternate-form entity whose signature equals that of its
successfully fetched base form is excluded, leaving the accepted records
unchanged. -/
theorem C2_dedup_invariant (w : World) (min_bst : Nat) :
    (∀ entries : List ApiEntry,
      (runPipeline w min_bst entries).results.Pairwise
        (fun a b => sigKey a ≠ sigKey b)) ∧
    (∀ (st : PipelineState) (e : ApiEntry) (d : PokemonData),
      w.details e.url = .ok (some d) →
      get_base_form_name d.name ≠ d.name →
      (∃ bd, w.details (base_form_url (get_base_form_name d.name)) = .ok (some bd) ∧
        get_pokemon_signature bd = get_pokemon_signature d) →
      (runStep w min_bst st e).results = st.results) := by
  constructor
  · intro entries
    exact (runPipeline_inv w min_bst entries ⟨[], [], 0⟩
      (by intro d hd; exact absurd hd (List.not_mem_nil d)) List.Pairwise.nil).2
  · intro st e d hdet hneq hbd
    have hsame : sameSignatureAsBase w d (get_base_form_name d.name) = true := by
      obtain ⟨bd, hb, hsig⟩ := hbd
      unfold sameSignatureAsBase
      simp only [hb, hsig]
      exact beq_self_eq_true _
    rcases stepClassify_sameAsBase_skip w min_bst st.processed e d hdet hneq hsame with
      h | h | h | h <;> (unfold runStep; rw [h])

/-- Witness for C2: the fixture world with a base form and an identical
alternate form; the alternate is excluded when processed on its own, and a
full run keeps keys distinct. -/
theorem C2_dedup_invariant_witness :
    (runPipeline pipeWorld 500 pipeEntries).results.Pairwise
      (fun a b => sigKey a ≠ sigKey b) ∧
    (runStep pipeWorld 500 ⟨[], [], 0⟩ ⟨"abc-mega", "u2"⟩).results = [] :=
  ⟨(C2_dedup_invariant pipeWorld 500).1 pipeEntries,
   (C2_dedup_invariant pipeWorld 500).2 ⟨[], [], 0⟩ ⟨"abc-mega", "u2"⟩ altData rfl
     (by decide) ⟨baseData, rfl, by decide⟩⟩

/-! ### Stacking promotion (C5) -/

/-- Helper: the rank is at most 2. -/
theorem aRank_le_two (a : String) (st : DefState) : aRank a st ≤ 2 := by
  unfold aRank
  split_ifs <;> omega

/-- Helper: the resistance loop never touches the immunity set. -/
theorem addResistance_immunities (st : DefState) (b : String) :
    (addResistance st b).immunities = st.immunities := by
  unfold addResistance
  split_ifs <;> rfl

/-- Helper: the folded resistance loop never touches the immunity set. -/
theorem foldl_addResistance_immunities (l : List String) (st : DefState) :
    (l.foldl addResistance st).immunities = st.immunities := by
  induction l generalizing st with
  | nil => rfl
  | cons b l ih => rw [List.foldl_cons, ih, addResistance_immunities]

/-- Helper: folding the immunity loop over a list not containing `a`
leaves the quarter and half sets untouched and cannot make `a` immune. -/
theorem foldl_addImmunity_spec (a : String) (l : List String) (st : DefState)
    (hal : a ∉ l) (him : a ∉ st.immunities) :
    (l.foldl addImmunity st).quarter_damage = st.quarter_damage ∧
    (l.foldl addImmunity st).half_damage = st.half_damage ∧
    a ∉ (l.foldl addImmunity st).immunities := by
  induction l generalizing st with
  | nil => exact ⟨rfl, rfl, him⟩
  | cons b l ih =>
    have hab : a ≠ b := fun h => hal (h ▸ List.mem_cons_self b l)
    have him' : a ∉ (addImmunity st b).immunities := by
      simp only [addImmunity, Finset.mem_insert]
      rintro (h | h)
      · exact hab h
      · exact him h
    have hal' : a ∉ l := fun h => hal (List.mem_cons_of_mem _ h)
    rw [List.foldl_cons]
    exact ih (addImmunity st b) hal' him'

/-- Helper: adding `a` itself as a resistance, while `a` is not immune,
raises its rank by one (capped at two) and keeps the quarter and half sets
disjoint at `a`. -/
theorem addResistance_self (a : String) (st : DefState)
    (him : a ∉ st.immunities)
    (hqh : ¬(a ∈ st.quarter_damage ∧ a ∈ st.half_damage)) :
    ¬(a ∈ (addResistance st a).quarter_damage ∧ a ∈ (addResistance st a).half_damage) ∧
    min 2 (aRank a st + 1) ≤ aRank a (addResistance st a) := by
  by_cases h2 : a ∈ st.quarter_damage
  · have he : addResistance st a = st := by
      unfold addResistance
      rw [if_neg him, if_pos h2]
    rw [he]
    have hr : aRank a st = 2 := by simp [aRank, h2]
    exact ⟨hqh, by omega⟩
  · by_cases h3 : a ∈ st.half_damage
    · have he : addResistance st a =
          ⟨st.immunities, insert a st.quarter_damage, st.half_damage.erase a⟩ := by
        unfold addResistance
        rw [if_neg him, if_neg h2, if_pos h3]
      rw [he]
      constructor
      · intro hc
        exact absurd hc.2 (Finset.not_mem_erase a st.half_damage)
      · have hrs : aRank a st ≤ 2 := aRank_le_two a st
        simp only [aRank, Finset.mem_insert_self, if_pos]
        omega
    · have he : addResistance st a =
          ⟨st.immunities, st.quarter_damage, insert a st.half_damage⟩ := by
        unfold addResistance
        rw [if_neg him, if_neg h2, if_neg h3]
      rw [he]
      constructor
      · intro hc
        exact h2 hc.1
      · have hr : aRank a ⟨st.immunities, st.quarter_damage, insert a st.half_damage⟩ = 1 := by
          simp [aRank, h2]
        have hrs : aRank a st = 0 := by simp [aRank, h2, h3]
        omega

/-- Helper: adding a different type as a resistance does not change the
membership of `a` in the quarter and half sets. -/
theorem addResistance_other (a b : String) (st : DefState) (hab : a ≠ b) :
    (a ∈ (addResistance st b).quarter_damage ↔ a ∈ st.quarter_damage) ∧
    (a ∈ (addResistance st b).half_damage ↔ a ∈ st.half_damage) := by
  unfold addResistance
  split_ifs <;>
    simp [Finset.mem_insert, Finset.mem_erase, hab]

/-- Helper: adding a different type as a resistance keeps the rank of `a`. -/
theorem aRank_addResistance_other (a b : String) (st : DefState) (hab : a ≠ b) :
    aRank a (addResistance st b) = aRank a st := by
  obtain ⟨hqi, hhi⟩ := addResistance_other a b st hab
  unfold aRank
  by_cases hq : a ∈ st.quarter_damage
  · rw [if_pos (hqi.mpr hq), if_pos hq]
  · rw [if_neg (fun h => hq (hqi.mp h)), if_neg hq]
    by_cases hh : a ∈ st.half_damage
    · rw [if_pos (hhi.mpr hh), if_pos hh]
    · rw [if_neg (fun h => hh (hhi.mp h)), if_neg hh]

/-- Helper: folding the resistance loop over a list raises the rank of a
non-immune type `a` by one (capped at two) when the list mentions `a`. -/
theorem foldl_addResistance_rank (a : String) (l : List String) (st : DefState)
    (him : a ∉ st.immunities)
    (hqh : ¬(a ∈ st.quarter_damage ∧ a ∈ st.half_damage)) :
    ¬(a ∈ (l.foldl addResistance st).quarter_damage ∧
        a ∈ (l.foldl addResistance st).half_damage) ∧
    min 2 (aRank a st + (if a ∈ l then 1 else 0)) ≤
      aRank a (l.foldl addResistance st) := by
  induction l generalizing st with
  | nil =>
    refine ⟨hqh, ?_⟩
    simpa using Nat.min_le_right 2 (aRank a st)
  | cons b l ih =>
    rw [List.foldl_cons]
    have him' : a ∉ (addResistance st b).immunities := by
      rw [addResistance_immunities]
      exact him
    by_cases hab : a = b
    · subst hab
      obtain ⟨hq', hrk⟩ := addResistance_self a st him hqh
      obtain ⟨hq'', hrk'⟩ := ih (addResistance st a) him' hq'
      refine ⟨hq'', ?_⟩
      have h2a := aRank_le_two a (addResistance st a)
      have h2f := aRank_le_two a (List.foldl addResistance (addResistance st a) l)
      simp only [List.mem_cons, true_or, if_pos]
      by_cases hal : a ∈ l <;> simp [hal] at hrk' <;> omega
    · obtain ⟨hqi, hhi⟩ := addResistance_other a b st hab
      have hq' : ¬(a ∈ (addResistance st b).quarter_damage ∧
          a ∈ (addResistance st b).half_damage) := by
        intro hc
        exact hqh ⟨hqi.mp hc.1, hhi.mp hc.2⟩
      obtain ⟨hq'', hrk'⟩ := ih (addResistance st b) him' hq'
      rw [aRank_addResistance_other a b st hab] at hrk'
      refine ⟨hq'', ?_⟩
      simpa [List.mem_cons, hab] using hrk'

/-- Helper: processing one entity type whose immunity list does not
mention `a` raises the rank of `a` by one (capped at two) when its
resistance list mentions `a`. -/
theorem processType_rank (chart : TypeChart) (a : String) (st : DefState) (ty : String)
    (hno : a ∉ (chart ty).no_damage_from)
    (him : a ∉ st.immunities)
    (hqh : ¬(a ∈ st.quarter_damage ∧ a ∈ st.half_damage)) :
    a ∉ (processType chart st ty).immunities ∧
    ¬(a ∈ (processType chart st ty).quarter_damage ∧
        a ∈ (processType chart st ty).half_damage) ∧
    min 2 (aRank a st + (if a ∈ (chart ty).half_damage_from then 1 else 0)) ≤
      aRank a (processType chart st ty) := by
  unfold processType
  obtain ⟨hq1, hh1, him1⟩ :=
    foldl_addImmunity_spec a (chart ty).no_damage_from st hno him
  have hqh1 : ¬(a ∈ ((chart ty).no_damage_from.foldl addImmunity st).quarter_damage ∧
      a ∈ ((chart ty).no_damage_from.foldl addImmunity st).half_damage) := by
    rw [hq1, hh1]
    exact hqh
  obtain ⟨hq2, hrk⟩ := foldl_addResistance_rank a (chart ty).half_damage_from _ him1 hqh1
  refine ⟨?_, hq2, ?_⟩
  · rw [foldl_addResistance_immunities]
    exact him1
  · have hrank1 : aRank a ((chart ty).no_damage_from.foldl addImmunity st) = aRank a st := by
      unfold aRank
      rw [hq1, hh1]
    rw [hrank1] at hrk
    exact hrk

/-- Helper: over the whole type list, the rank of a never-immune type `a`
reaches the count of resistance-list mentions, capped at two. -/
theorem defFold_rank (chart : TypeChart) (a : String) :
    ∀ (ts : List String) (st : DefState),
      (∀ ty ∈ ts, a ∉ (chart ty).no_damage_from) →
      a ∉ st.immunities →
      ¬(a ∈ st.quarter_damage ∧ a ∈ st.half_damage) →
      a ∉ (ts.foldl (processType chart) st).immunities ∧
      ¬(a ∈ (ts.foldl (processType chart) st).quarter_damage ∧
          a ∈ (ts.foldl (processType chart) st).half_damage) ∧
      min 2 (aRank a st +
          ts.countP (fun ty => decide (a ∈ (chart ty).half_damage_from))) ≤
        aRank a (ts.foldl (processType chart) st) := by
  intro ts
  induction ts with
  | nil =>
    intro st _ him hqh
    refine ⟨him, hqh, ?_⟩
    simpa using Nat.min_le_right 2 (aRank a st)
  | cons ty ts ih =>
    intro st hno him hqh
    rw [List.foldl_cons]
    obtain ⟨him1, hqh1, hrk1⟩ :=
      processType_rank chart a st ty (hno ty (List.mem_cons_self ty ts)) him hqh
    obtain ⟨him2, hqh2, hrk2⟩ :=
      ih (processType chart st ty) (fun t ht => hno t (List.mem_cons_of_mem _ ht)) him1 hqh1
    refine ⟨him2, hqh2, ?_⟩
    rw [List.countP_cons]
    have h2a := aRank_le_two a (processType chart st ty)
    have h2f := aRank_le_two a ((ts.foldl (processType chart) (processType chart st ty)))
    simp only [decide_eq_true_eq]
    by_cases hmem : a ∈ (chart ty).half_damage_from
    · rw [if_pos hmem] at hrk1 ⊢
      omega
    · rw [if_neg hmem] at hrk1 ⊢
      omega

/-- C5: when at least two entries of the entity type list half-resist the
same attacking type, and no entry grants immunity to it, that attacking
type ends up in the quarter-damage set and not in the half-damage set (nor
the immunity set), so it contributes exactly one to the final score. -/
theorem C5_stacking_promotion (chart : TypeChart) (pokemon_types : List String) (a : String)
    (hno : ∀ ty ∈ pokemon_types, a ∉ (chart ty).no_damage_from)
    (h2 : 2 ≤ pokemon_types.countP (fun ty => decide (a ∈ (chart ty).half_damage_from))) :
    a ∈ (defFold chart pokemon_types).quarter_damage ∧
    a ∉ (defFold chart pokemon_types).half_damage ∧
    a ∉ (defFold chart pokemon_types).immunities := by
  obtain ⟨him, hqh, hrk⟩ := defFold_rank chart a pokemon_types ⟨∅, ∅, ∅⟩ hno
    (by simp) (by simp)
  have hinit : aRank a ⟨∅, ∅, ∅⟩ = 0 := by simp [aRank]
  rw [hinit] at hrk
  have hrk' : min 2 (0 +
      pokemon_types.countP (fun ty => decide (a ∈ (chart ty).half_damage_from))) ≤
      aRank a (defFold chart pokemon_types) := hrk
  have hq : a ∈ (defFold chart pokemon_types).quarter_damage := by
    by_cases hqm : a ∈ (defFold chart pokemon_types).quarter_damage
    · exact hqm
    · exfalso
      unfold aRank at hrk'
      rw [if_neg hqm] at hrk'
      split at hrk' <;> omega
  exact ⟨hq, fun hh => hqh ⟨hq, hh⟩, him⟩

/-- Witness for C5: steel and fairy both half-resist dragon; dragon is
promoted to the quarter-damage set once. -/
theorem C5_stacking_promotion_witness :
    "dragon" ∈ (defFold dragonChart ["steel", "fairy"]).quarter_damage ∧
    "dragon" ∉ (defFold dragonChart ["steel", "fairy"]).half_damage ∧
    "dragon" ∉ (defFold dragonChart ["steel", "fairy"]).immunities :=
  C5_stacking_promotion dragonChart ["steel", "fairy"] "dragon" (by decide) (by decide)

/-! ### Distinct counting (C1) -/

/-- Helper: the immunity loop unions the list into the immunity set and
leaves the other two sets untouched. -/
theorem foldl_addImmunity_eq (l : List String) (st : DefState) :
    (l.foldl addImmunity st).immunities = st.immunities ∪ l.toFinset ∧
    (l.foldl addImmunity st).quarter_damage = st.quarter_damage ∧
    (l.foldl addImmunity st).half_damage = st.half_damage := by
  induction l generalizing st with
  | nil => simp
  | cons b l ih =>
    rw [List.foldl_cons]
    obtain ⟨h1, h2, h3⟩ := ih (addImmunity st b)
    refine ⟨?_, h2, h3⟩
    rw [h1]
    show insert b st.immunities ∪ l.toFinset = st.immunities ∪ (b :: l).toFinset
    rw [List.toFinset_cons, Finset.insert_union, Finset.union_insert]

/-- Helper: one resistance step on a non-immune type inserts it into the
tracked resistance union and keeps quarter and half disjoint. -/
theorem addResistance_union (st : DefState) (b : String)
    (him : b ∉ st.immunities)
    (hdisj : Disjoint st.quarter_damage st.half_damage) :
    (addResistance st b).quarter_damage ∪ (addResistance st b).half_damage =
      insert b (st.quarter_damage ∪ st.half_damage) ∧
    Disjoint (addResistance st b).quarter_damage (addResistance st b).half_damage := by
  unfold addResistance
  rw [if_neg him]
  by_cases h2 : b ∈ st.quarter_damage
  · rw [if_pos h2]
    exact ⟨(Finset.insert_eq_self.mpr (Finset.mem_union_left _ h2)).symm, hdisj⟩
  · rw [if_neg h2]
    by_cases h3 : b ∈ st.half_damage
    · rw [if_pos h3]
      constructor
      · ext x
        by_cases hx : x = b <;>
          simp [hx, h3, Finset.mem_union, Finset.mem_insert, Finset.mem_erase]
      · rw [Finset.disjoint_left]
        intro x hx hx'
        rcases Finset.mem_insert.mp hx with rfl | hxq
        · exact absurd hx' (Finset.not_mem_erase x st.half_damage)
        · exact Finset.disjoint_left.mp hdisj hxq (Finset.mem_of_mem_erase hx')
    · rw [if_neg h3]
      constructor
      · exact Finset.union_insert _ _ _
      · rw [Finset.disjoint_left] at hdisj ⊢
        intro x hx hx'
        rcases Finset.mem_insert.mp hx' with rfl | hxh
        · exact h2 hx
        · exact hdisj hx hxh

/-- Helper: the resistance loop over a list of non-immune types unions the
list into the tracked resistance union, never touches the immunity set,
and keeps quarter and half disjoint. -/
theorem foldl_addResistance_eq (l : List String) (st : DefState)
    (him : ∀ b ∈ l, b ∉ st.immunities)
    (hdisj : Disjoint st.quarter_damage st.half_damage) :
    (l.foldl addResistance st).quarter_damage ∪ (l.foldl addResistance st).half_damage =
      (st.quarter_damage ∪ st.half_damage) ∪ l.toFinset ∧
    Disjoint (l.foldl addResistance st).quarter_damage
      (l.foldl addResistance st).half_damage := by
  induction l generalizing st with
  | nil => simpa using hdisj
  | cons b l ih =>
    rw [List.foldl_cons]
    obtain ⟨hu, hd⟩ := addResistance_union st b (him b (List.mem_cons_self b l)) hdisj
    have him' : ∀ b' ∈ l, b' ∉ (addResistance st b).immunities := by
      intro b' hb'
      rw [addResistance_immunities]
      exact him b' (List.mem_cons_of_mem _ hb')
    obtain ⟨hu', hd'⟩ := ih (addResistance st b) him' hd
    refine ⟨?_, hd'⟩
    rw [hu', hu, List.toFinset_cons, Finset.insert_union, Finset.union_insert]

/-- Helper: every type in the list contributes its immunity list to the
running immunity union. -/
theorem subset_noDamageUnion (chart : TypeChart) (ts : List String) (ty : String)
    (h : ty ∈ ts) :
    (chart ty).no_damage_from.toFinset ⊆ noDamageUnion chart ts := by
  induction ts with
  | nil => exact absurd h (List.not_mem_nil ty)
  | cons t ts ih =>
    rcases List.mem_cons.mp h with rfl | hmem
    · exact Finset.subset_union_left
    · exact (ih hmem).trans Finset.subset_union_right

/-- Helper: every type in the list contributes its resistance list to the
running resistance union. -/
theorem subset_halfDamageUnion (chart : TypeChart) (ts : List String) (ty : String)
    (h : ty ∈ ts) :
    (chart ty).half_damage_from.toFinset ⊆ halfDamageUnion chart ts := by
  induction ts with
  | nil => exact absurd h (List.not_mem_nil ty)
  | cons t ts ih =>
    rcases List.mem_cons.mp h with rfl | hmem
    · exact Finset.subset_union_left
    · exact (ih hmem).trans Finset.subset_union_right

/-- Helper: with the immunity and resistance universes disjoint, the fold
computes the immunity union in `immunities`, the resistance union in
`quarter ∪ half`, and keeps quarter and half disjoint. -/
theorem defFold_eq (chart : TypeChart) (N HU : Finset String) (hNH : Disjoint N HU) :
    ∀ (ts : List String) (st : DefState),
      (∀ ty ∈ ts, (chart ty).no_damage_from.toFinset ⊆ N) →
      (∀ ty ∈ ts, (chart ty).half_damage_from.toFinset ⊆ HU) →
      st.immunities ⊆ N →
      st.quarter_damage ∪ st.half_damage ⊆ HU →
      Disjoint st.quarter_damage st.half_damage →
      (ts.foldl (processType chart) st).immunities =
        st.immunities ∪ noDamageUnion chart ts ∧
      (ts.foldl (processType chart) st).quarter_damage ∪
          (ts.foldl (processType chart) st).half_damage =
        (st.quarter_damage ∪ st.half_damage) ∪ halfDamageUnion chart ts ∧
      Disjoint (ts.foldl (processType chart) st).quarter_damage
        (ts.foldl (processType chart) st).half_damage := by
  intro ts
  induction ts with
  | nil =>
    intro st _ _ _ _ hdisj
    refine ⟨?_, ?_, hdisj⟩ <;> simp [noDamageUnion, halfDamageUnion]
  | cons ty ts ih =>
    intro st hN hH hstN hstH hdisj
    rw [List.foldl_cons]
    have hNty := hN ty (List.mem_cons_self ty ts)
    have hHty := hH ty (List.mem_cons_self ty ts)
    obtain ⟨hi1, hq1, hh1⟩ := foldl_addImmunity_eq (chart ty).no_damage_from st
    have hstN1 : ((chart ty).no_damage_from.foldl addImmunity st).immunities ⊆ N := by
      rw [hi1]
      exact Finset.union_subset hstN hNty
    have him1 : ∀ b ∈ (chart ty).half_damage_from,
        b ∉ ((chart ty).no_damage_from.foldl addImmunity st).immunities := by
      intro b hb hmem
      have hbHU : b ∈ HU := hHty (List.mem_toFinset.mpr hb)
      exact Finset.disjoint_right.mp hNH hbHU (hstN1 hmem)
    have hdisj1 : Disjoint ((chart ty).no_damage_from.foldl addImmunity st).quarter_damage
        ((chart ty).no_damage_from.foldl addImmunity st).half_damage := by
      rw [hq1, hh1]
      exact hdisj
    obtain ⟨hu2, hd2⟩ := foldl_addResistance_eq (chart ty).half_damage_from _ him1 hdisj1
    have hpt_imm : (processType chart st ty).immunities =
        st.immunities ∪ (chart ty).no_damage_from.toFinset := by
      have h := foldl_addResistance_immunities (chart ty).half_damage_from
        ((chart ty).no_damage_from.foldl addImmunity st)
      rw [hi1] at h
      exact h
    have hpt_qh : (processType chart st ty).quarter_damage ∪
        (processType chart st ty).half_damage =
        (st.quarter_damage ∪ st.half_damage) ∪ (chart ty).half_damage_from.toFinset := by
      have h := hu2
      rw [hq1, hh1] at h
      exact h
    have hpt_disj : Disjoint (processType chart st ty).quarter_damage
        (processType chart st ty).half_damage := hd2
    have hstN' : (processType chart st ty).immunities ⊆ N := by
      rw [hpt_imm]
      exact Finset.union_subset hstN hNty
    have hstH' : (processType chart st ty).quarter_damage ∪
        (processType chart st ty).half_damage ⊆ HU := by
      rw [hpt_qh]
      exact Finset.union_subset hstH hHty
    obtain ⟨ha, hb, hc⟩ := ih (processType chart st ty)
      (fun t ht => hN t (List.mem_cons_of_mem _ ht))
      (fun t ht => hH t (List.mem_cons_of_mem _ ht)) hstN' hstH' hpt_disj
    refine ⟨?_, ?_, hc⟩
    · rw [ha, hpt_imm]
      show _ = st.immunities ∪ ((chart ty).no_damage_from.toFinset ∪ noDamageUnion chart ts)
      rw [Finset.union_assoc]
    · rw [hb, hpt_qh]
      show _ = (st.quarter_damage ∪ st.half_damage) ∪
        ((chart ty).half_damage_from.toFinset ∪ halfDamageUnion chart ts)
      rw [Finset.union_assoc]

/-- C1 counterexample: in a chart where rock half-resists normal and ghost
is immune to normal, the entity typed rock then ghost records normal both
as a half resistance and as an immunity: the score is 2, while only one
distinct attacking type is resisted, refuting the claim that each distinct
attacking type is counted exactly once regardless of processing order. -/
theorem C1_counterexample :
    ¬ (∀ (chart : TypeChart) (pokemon_types : List String),
        calculate_defensive_effectiveness pokemon_types chart =
          distinctResistedCount chart pokemon_types) := by
  intro h
  exact absurd (h cexChart ["rock", "ghost"]) (by decide)

/-- C1 amended: when no attacking type appears both in some entity type's
immunity list and in some entity type's resistance list, the score equals
the number of distinct attacking types occurring in at least one
`no_damage_from` or `half_damage_from` set of the entity's types — each
counted once, in any processing order. -/
theorem C1_distinct_count (chart : TypeChart) (pokemon_types : List String)
    (hdisj : Disjoint (noDamageUnion chart pokemon_types)
      (halfDamageUnion chart pokemon_types)) :
    calculate_defensive_effectiveness pokemon_types chart =
      distinctResistedCount chart pokemon_types := by
  obtain ⟨hi, hqh, hd⟩ := defFold_eq chart (noDamageUnion chart pokemon_types)
    (halfDamageUnion chart pokemon_types) hdisj pokemon_types ⟨∅, ∅, ∅⟩
    (fun ty ht => subset_noDamageUnion chart pokemon_types ty ht)
    (fun ty ht => subset_halfDamageUnion chart pokemon_types ty ht)
    (Finset.empty_subset _) (by simp) (Finset.disjoint_empty_left _)
  have hi' : (defFold chart pokemon_types).immunities =
      noDamageUnion chart pokemon_types := by
    rw [show (defFold chart pokemon_types).immunities =
      (pokemon_types.foldl (processType chart) ⟨∅, ∅, ∅⟩).immunities from rfl, hi]
    exact Finset.empty_union _
  have hqh' : (defFold chart pokemon_types).quarter_damage ∪
      (defFold chart pokemon_types).half_damage =
      halfDamageUnion chart pokemon_types := by
    rw [show (defFold chart pokemon_types).quarter_damage ∪
        (defFold chart pokemon_types).half_damage =
      (pokemon_types.foldl (processType chart) ⟨∅, ∅, ∅⟩).quarter_damage ∪
        (pokemon_types.foldl (processType chart) ⟨∅, ∅, ∅⟩).half_damage from rfl, hqh]
    simp
  have hd' : Disjoint (defFold chart pokemon_types).quarter_damage
      (defFold chart pokemon_types).half_damage := hd
  have himm_disj : Disjoint (defFold chart pokemon_types).immunities
      ((defFold chart pokemon_types).quarter_damage ∪
        (defFold chart pokemon_types).half_damage) := by
    rw [hi', hqh']
    exact hdisj
  unfold calculate_defensive_effectiveness defScore
  rw [Nat.add_assoc, ← Finset.card_union_of_disjoint hd',
    ← Finset.card_union_of_disjoint himm_disj]
  unfold distinctResistedCount
  rw [hi', hqh']

/-- Witness for C1 amended: in the steel/fairy chart the immunity union is
empty, the hypothesis holds, and the score is the one distinct resisted
type. -/
theorem C1_distinct_count_witness :
    calculate_defensive_effectiveness ["steel", "fairy"] dragonChart =
      distinctResistedCount dragonChart ["steel", "fairy"] :=
  C1_distinct_count dragonChart ["steel", "fairy"]
    (by rw [show noDamageUnion dragonChart ["steel", "fairy"] = ∅ from rfl]
        exact Finset.disjoint_empty_left _)

end WorthyPokemons
